import Mathlib

/-!
Verification development for the timeloom dashboard client.

This file gives a shallow embedding, in Lean 4, of the tag-filtering,
pagination/caching and error-mapping logic of the TypeScript sources
(`src/lib/tagFiltering.ts`, `src/lib/googleCalendarClient.ts`,
`src/lib/supabaseClient.ts`, `src/lib/emailHelpers.ts` /
`src/lib/timelineClient.ts`, `src/lib/cardApi.ts`, the emails list page
component and the timeline page component), and proves or refutes the
frozen specification claims about that logic.

Modelling conventions:
* Remote services (Gmail, Google Calendar, Supabase/PostgREST) are modelled
  by explicit data passed to the embedded functions: HTTP responses become
  status-plus-body records, database tables become lists of rows, and the
  PostgREST embedded-resource queries are modelled by functions computing
  what the documented query semantics return for a given table state.
* JavaScript `Map` objects are modelled as association lists in insertion
  order, with "later entry wins" lookup where the source builds a `Map`
  from a list.
* JavaScript string truthiness (empty string is falsy) is modelled
  explicitly where the source tests a string with `if (s)` or `!!s`.
* Timestamps are modelled as integer milliseconds (the sources only ever
  compare or subtract `new Date(x).getTime()` values); locale-dependent
  display formatting (sender/date rendering) carries no logic that any
  claim quantifies over and is not part of the item model.
-/

namespace Timeloom

/-- JS truthiness of an optional string: `undefined`/`null` and the empty
string are falsy. -/
def optTruthy : Option String → Bool
  | some s => ¬ (s = "")
  | none => false

/-- Lookup in an association list where the *last* binding of a key wins,
matching the semantics of building a JS `Map` from an entry list (later
entries overwrite earlier ones). -/
def mapLookup {α : Type} (entries : List (String × α)) (k : String) : Option α :=
  (entries.reverse.find? (fun e => e.1 = k)).map (·.2)

/-- Membership test for the association-list map. -/
def mapHas {α : Type} (entries : List (String × α)) (k : String) : Bool :=
  (entries.find? (fun e => e.1 = k)).isSome

/-! ## Tag filter engine (`src/lib/tagFiltering.ts`) -/

/-- `FilterMode` from `tagFiltering.ts`: `'any' | 'all'`. -/
inductive FilterMode where
  | any
  | all
  deriving DecidableEq, Repr

/-- One row of the local `emails` table together with its `email_tags`
association rows: the email id and the ids of the tags currently attached
to it. -/
structure EmailRow where
  email_id : String
  tag_ids : List String
  deriving DecidableEq, Repr

/-- The PostgREST query issued by `fetchEmailsByTags`
(`.select('..., email_tags!inner(tag_id)').in('email_tags.tag_id', tagIds)`):
for each email, the embedded `email_tags` rows are restricted to those whose
`tag_id` is in `tagIds`, and the `!inner` join drops emails with no
remaining embedded row.  Each surviving email row carries the ids of its
matching association rows. -/
def emailTagQuery (db : List EmailRow) (tagIds : List String) :
    List (String × List String) :=
  db.filterMap fun e =>
    if (e.tag_ids.filter (fun t => tagIds.contains t)).isEmpty then none
    else some (e.email_id, e.tag_ids.filter (fun t => tagIds.contains t))

/-- `allTagsForThisEmail` of `fetchEmailsByTags` (tagFiltering.ts lines
105-108): all `tag_id`s over all returned rows carrying the given email
id, flattened. -/
def tagsForId (emailsData : List (String × List String)) (x : String) : List String :=
  ((emailsData.filter (fun e => e.1 = x)).map (fun e => e.2)).flatten

/-- One iteration of the `matchingEmailsMap` loop of `fetchEmailsByTags`
(tagFiltering.ts lines 90-120): in `'all'` mode an email is added only if
`tagsForId` over the whole result set contains every requested tag; in
`'any'` mode every returned email is added; in both modes an already-added
email is skipped. -/
def matchStep (emailsData : List (String × List String)) (tagIds : List String)
    (mode : FilterMode) (acc : List String) (row : String × List String) :
    List String :=
  match mode with
  | .all =>
      if acc.contains row.1 then acc
      else
        if tagIds.all (fun t => (tagsForId emailsData row.1).contains t) then
          acc ++ [row.1]
        else acc
  | .any =>
      if acc.contains row.1 then acc else acc ++ [row.1]

/-- The client-side loop of `fetchEmailsByTags` (tagFiltering.ts lines
88-122): iterate over the returned rows building `matchingEmailsMap`; the
result is the list of map keys in insertion order. -/
def matchingEmailIds (emailsData : List (String × List String))
    (tagIds : List String) (mode : FilterMode) : List String :=
  emailsData.foldl (matchStep emailsData tagIds mode) []

/-- `fetchEmailsByTags` (tagFiltering.ts lines 60-123) restricted to the
email ids it selects: an empty `tagIds` returns `[]` immediately; otherwise
the Supabase query runs and the match loop selects the ids. -/
def fetchEmailsByTagsIds (db : List EmailRow) (tagIds : List String)
    (mode : FilterMode) : List String :=
  if tagIds.length = 0 then []
  else matchingEmailIds (emailTagQuery db tagIds) tagIds mode

/-- A tag record (`id, name, type, color`). -/
structure Tag where
  id : String
  name : String
  type : String
  color : String
  deriving DecidableEq, Repr

/-- A Google Calendar event as consumed by the tag filter: its id and the
tag objects merged in by `fetchCalendarEvents`. -/
structure CalEventItem where
  id : String
  tags : List Tag
  deriving DecidableEq, Repr

/-- The client-side filter of `fetchCalendarEventsByTags` (tagFiltering.ts
lines 192-207): the event's tag-id set is collected, and `'all'` mode keeps
events containing every requested tag while `'any'` mode keeps events
containing at least one. -/
def filterEventsByTags (events : List CalEventItem) (tagIds : List String)
    (mode : FilterMode) : List CalEventItem :=
  events.filter fun event =>
    match mode with
    | .all => tagIds.all (fun t => (event.tags.map (fun g => g.id)).contains t)
    | .any => tagIds.any (fun t => (event.tags.map (fun g => g.id)).contains t)

/-- `fetchCalendarEventsByTags` (tagFiltering.ts lines 168-216) restricted
to its filtering behaviour: an empty `tagIds` returns `[]` immediately;
otherwise the fetched window of events is filtered client-side. -/
def fetchCalendarEventsByTagsModel (events : List CalEventItem)
    (tagIds : List String) (mode : FilterMode) : List CalEventItem :=
  if tagIds.length = 0 then [] else filterEventsByTags events tagIds mode

/-! ## String helpers (JS `toLowerCase`, `includes`, `split`, `||`) -/

/-- JS `String.prototype.toLowerCase`, per character. -/
def strToLower (s : String) : String :=
  ⟨s.data.map Char.toLower⟩

/-- Prefix test on character lists. -/
def charsHavePrefix : List Char → List Char → Bool
  | _, [] => true
  | [], _ :: _ => false
  | c :: cs, p :: ps => c = p && charsHavePrefix cs ps

/-- Substring containment on character lists (JS `includes`): the pattern
occurs at some position, and the empty pattern always occurs. -/
def charsInclude (s pat : List Char) : Bool :=
  match s with
  | [] => pat.isEmpty
  | _ :: cs => charsHavePrefix s pat || charsInclude cs pat

/-- JS `String.prototype.includes`. -/
def strIncludes (s pat : String) : Bool :=
  charsInclude s.data pat.data

/-- Accumulator-based splitting of a character list at commas, the helper
for the JS `split(',')` model below. -/
def splitCommaAux : List Char → List Char → List String
  | [], cur => [⟨cur.reverse⟩]
  | c :: cs, cur =>
      if c = ',' then ⟨cur.reverse⟩ :: splitCommaAux cs []
      else splitCommaAux cs (c :: cur)

/-- JS `s.split(',')`, used on the `tags` URL parameter. -/
def splitComma (s : String) : List String :=
  splitCommaAux s.data []

/-- JS `s || d` for a string `s`: the empty string falls through to the
default. -/
def strOr (s d : String) : String :=
  if s = "" then d else s

/-- JS `x || d` for an optional string `x` (both `null`/`undefined` and the
empty string fall through to the default). -/
def jsOrStr (x : Option String) (d : String) : String :=
  match x with
  | some s => strOr s d
  | none => d

/-- JS `x || null` for an optional string: normalizes the empty string to
`null`. -/
def jsOrNull (x : Option String) : Option String :=
  match x with
  | some s => if s = "" then none else some s
  | none => none

/-! ## Project-card display filter (timeline page, `filteredCardsForDisplay`) -/

/-- A timeline (project) card as held by the timeline page after
`fetchTimelineCardsWithTags`. -/
structure TimelineCardItem where
  id : String
  title : String
  description : Option String
  start_date : String
  end_date : Option String
  tags : List Tag
  deriving DecidableEq, Repr

/-- The text-search clause of `filteredCardsForDisplay` (timeline page
lines 199-205): an empty search term matches everything; otherwise the
lower-cased term must occur in the title, the description (when present) or
some tag name. -/
def cardMatchesSearch (globalSearchTerm : String) (card : TimelineCardItem) : Bool :=
  let searchTermLower := strToLower globalSearchTerm
  (globalSearchTerm = "")
    || strIncludes (strToLower card.title) searchTermLower
    || (match card.description with
        | some d => strIncludes (strToLower d) searchTermLower
        | none => false)
    || card.tags.any (fun tag => strIncludes (strToLower tag.name) searchTermLower)

/-- The tag clause of `filteredCardsForDisplay` (timeline page lines
209-221): an empty selection passes the tag filter; otherwise `'any'`
requires some selected tag on the card and `'all'` requires every selected
tag on the card. -/
def cardPassesTagFilter (selectedFilterTagIds : List String) (mode : FilterMode)
    (card : TimelineCardItem) : Bool :=
  if selectedFilterTagIds.length = 0 then true
  else
    match mode with
    | .any => selectedFilterTagIds.any (fun t => (card.tags.map (fun g => g.id)).contains t)
    | .all => selectedFilterTagIds.all (fun t => (card.tags.map (fun g => g.id)).contains t)

/-- `filteredCardsForDisplay` (timeline page lines 197-223): cards failing
the text search are dropped first, then the multi-tag filter is applied. -/
def filteredCardsForDisplay (cards : List TimelineCardItem)
    (globalSearchTerm : String) (selectedFilterTagIds : List String)
    (mode : FilterMode) : List TimelineCardItem :=
  cards.filter fun card =>
    if ¬ cardMatchesSearch globalSearchTerm card then false
    else cardPassesTagFilter selectedFilterTagIds mode card

/-! ## HTTP responses and the Google API error taxonomy -/

/-- An HTTP response from the mail/calendar service: status code plus the
parsed body (when the status is successful). -/
structure HttpResp (α : Type) where
  status : Nat
  body : α
  deriving DecidableEq, Repr

/-- `Response.ok` of the Fetch API: status in the 200-299 range. -/
def respOk (status : Nat) : Bool :=
  200 ≤ status && status ≤ 299

/-- The error kinds thrown by the Google API client functions: the uniform
`'Google API token expired'` error for credential expiry, and the generic
failure (whose message in the source carries the server-provided text; only
the status is relevant here). -/
inductive ApiError where
  | tokenExpired
  | other (status : Nat)
  deriving DecidableEq, Repr

/-- A Gmail full message as returned by the per-message detail endpoint:
id, thread id, snippet, label ids and the metadata headers (name-value
pairs from `payload.headers`). -/
structure GmailMsg where
  id : String
  threadId : String
  snippet : Option String
  labelIds : Option (List String)
  headers : List (String × String)
  deriving DecidableEq, Repr

/-- `fetchCalendarEvents` tag merge (googleCalendarClient lines 401-420):
each fetched event gets the tags recorded for its id, defaulting to the
empty list. -/
def mergeCalendarEventTags (events : List CalEventItem)
    (tagsMap : List (String × List Tag)) : List CalEventItem :=
  events.map fun event => { event with tags := (mapLookup tagsMap event.id).getD [] }

/-- `fetchCalendarEvents` (googleCalendarClient lines 353-428): a non-ok
status of 401/403 throws `'Google API token expired'`, other non-ok
statuses throw a generic error; on success the events are merged with their
tags, and a failure of the tag lookup degrades every event to an empty tag
list instead of failing the fetch. -/
def fetchCalendarEventsModel (resp : HttpResp (List CalEventItem))
    (tagFetch : Except Unit (List (String × List Tag))) :
    Except ApiError (List CalEventItem) :=
  if ¬ respOk resp.status then
    if resp.status = 401 ∨ resp.status = 403 then Except.error ApiError.tokenExpired
    else Except.error (ApiError.other resp.status)
  else
    let events := resp.body
    if events.length > 0 then
      match tagFetch with
      | Except.ok tagsMap => Except.ok (mergeCalendarEventTags events tagsMap)
      | Except.error _ => Except.ok (events.map fun event => { event with tags := [] })
    else Except.ok events

/-- The timeline event kinds of `TimelineEvent` (supabaseClient.ts). -/
inductive TimelineEventType where
  | emailTagAdded
  | emailTagRemoved
  | cardCreated
  | cardUpdated
  | cardDeleted
  | calendarEventCreated
  | calendarEventUpdated
  | calendarEventDeleted
  deriving DecidableEq, Repr

/-- A calendar event as consumed by `fetchRecentCalendarActivity`: status
and the `created`/`updated` timestamps.  Timestamps are integer
milliseconds (the source only compares `new Date(x).getTime()` values);
an absent or empty timestamp string is `none`. -/
structure ActivityCalEvent where
  id : String
  status : Option String
  created : Option Int
  updated : Option Int
  deriving DecidableEq, Repr

/-- The per-event classification of `fetchRecentCalendarActivity`
(googleCalendarClient lines 644-658): a cancelled event is a deletion at
`updated` (falling back to the current time when `updated` is absent);
otherwise, when both timestamps are present and less than 5000 ms apart the
event is a creation at `created`; otherwise, when `updated` is present, an
update at `updated`; otherwise the event is skipped. -/
def classifyRecentEvent (now : Int) (event : ActivityCalEvent) :
    Option (TimelineEventType × Int) :=
  if event.status = some "cancelled" then
    some (TimelineEventType.calendarEventDeleted, event.updated.getD now)
  else
    match event.created, event.updated with
    | some created, some updated =>
        if updated - created < 5000 then
          some (TimelineEventType.calendarEventCreated, created)
        else
          some (TimelineEventType.calendarEventUpdated, updated)
    | none, some updated =>
        some (TimelineEventType.calendarEventUpdated, updated)
    | _, none => none

/-- Success/failure report of a write-path function (the source throws on
failure). -/
inductive WriteResult where
  | ok
  | err
  deriving DecidableEq, Repr

/-- Outcome flags for the two statements of a replace-tags operation. -/
structure ReplaceTagsOutcome where
  deleteFails : Bool
  insertFails : Bool
  deriving DecidableEq, Repr

/-- The `calendar_event_tags` rows of the current user: (event_id, tag_id)
pairs. -/
structure CalTagTable where
  rows : List (String × String)
  deriving DecidableEq, Repr

/-- `setTagsForCalendarEvent` (supabaseClient.ts lines 1212-1264): delete
all rows of the event, then insert the new links when any tags are given;
each failing statement throws, and there is no transaction around the two
statements. -/
def setTagsForCalendarEventModel (oc : ReplaceTagsOutcome) (db : CalTagTable)
    (eventId : String) (tagIds : List String) : WriteResult × CalTagTable :=
  if oc.deleteFails then (WriteResult.err, db)
  else
    let db1 : CalTagTable := ⟨db.rows.filter (fun r => ¬ (r.1 = eventId))⟩
    if tagIds.length > 0 then
      if oc.insertFails then (WriteResult.err, db1)
      else (WriteResult.ok, ⟨db1.rows ++ tagIds.map (fun tagId => (eventId, tagId))⟩)
    else (WriteResult.ok, db1)

/-- The `timeline_card_tags` rows of the current user: (card_id, tag_id)
pairs. -/
structure TimelineTagTable where
  rows : List (String × String)
  deriving DecidableEq, Repr

/-- `setTagsForTimelineCard` (timelineClient lines 273-315): the same
delete-then-insert shape as the calendar variant, against the
`timeline_card_tags` table. -/
def setTagsForTimelineCardModel (oc : ReplaceTagsOutcome) (db : TimelineTagTable)
    (cardId : String) (tagIds : List String) : WriteResult × TimelineTagTable :=
  if oc.deleteFails then (WriteResult.err, db)
  else
    let db1 : TimelineTagTable := ⟨db.rows.filter (fun r => ¬ (r.1 = cardId))⟩
    if tagIds.length > 0 then
      if oc.insertFails then (WriteResult.err, db1)
      else (WriteResult.ok, ⟨db1.rows ++ tagIds.map (fun tagId => (cardId, tagId))⟩)
    else (WriteResult.ok, db1)

/-- The custom-card store: card rows, card-tag links and the append-only
activity log (card id paired with the activity type string). -/
structure CardsDb where
  cards : List (String × String × String)
  cardTags : List (String × String)
  log : List (String × String)
  deriving DecidableEq, Repr

/-- Outcome flags for the three statements of `createCard`. -/
structure CreateCardOutcome where
  cardInsertFails : Bool
  tagInsertFails : Bool
  logInsertFails : Bool
  deriving DecidableEq, Repr

/-- `createCard` (cardApi lines 88-149): insert the card row; then, when
tag ids are given, insert the tag links and throw on failure (the card row
from step 1 stays committed, as the source notes a transaction would be
needed); finally append the `CREATED` log entry, whose failure is logged
but not thrown. -/
def createCardModel (oc : CreateCardOutcome) (db : CardsDb) (newId title content : String)
    (tagIds : List String) : WriteResult × CardsDb :=
  if oc.cardInsertFails then (WriteResult.err, db)
  else
    let db1 : CardsDb := { db with cards := db.cards ++ [(newId, title, content)] }
    if tagIds.length > 0 ∧ oc.tagInsertFails then (WriteResult.err, db1)
    else
      let db2 : CardsDb :=
        if tagIds.length > 0 then
          { db1 with cardTags := db1.cardTags ++ tagIds.map (fun tagId => (newId, tagId)) }
        else db1
      let db3 : CardsDb :=
        if oc.logInsertFails then db2
        else { db2 with log := db2.log ++ [(newId, "CREATED")] }
      (WriteResult.ok, db3)

/-- The email-tag store touched by `removeTagFromEmail`: the `email_tags`
rows and the append-only `removed_email_tags_log`, both as
(email_id, tag_id) pairs of the current user. -/
structure EmailTagDb where
  emailTags : List (String × String)
  removedLog : List (String × String)
  deriving DecidableEq, Repr

/-- Outcome flags for the two statements of `removeTagFromEmail`. -/
structure RemoveOutcome where
  deleteFails : Bool
  logFails : Bool
  deriving DecidableEq, Repr

/-- `removeTagFromEmail` (supabaseClient.ts lines 650-692): missing
arguments return `false`; a failing delete returns `false` with the store
untouched; after a successful delete the removal is logged to
`removed_email_tags_log`, and a failure of that log insert is only written
to the console — the function still returns `true` and the deleted
association stays deleted. -/
def removeTagFromEmailModel (oc : RemoveOutcome) (db : EmailTagDb)
    (userId emailId tagId : String) : Bool × EmailTagDb :=
  if userId = "" ∨ emailId = "" ∨ tagId = "" then (false, db)
  else if oc.deleteFails then (false, db)
  else
    let db1 : EmailTagDb :=
      { db with emailTags := db.emailTags.filter (fun r => ¬ (r = (emailId, tagId))) }
    if oc.logFails then (true, db1)
    else (true, { db1 with removedLog := db1.removedLog ++ [(emailId, tagId)] })

/-! ## Emails list page (`EmailsList` component) -/

/-- The per-email row delivered by `fetchSupabaseEmailData`: star state and
the attached tag objects (both defaulted when the row is missing). -/
structure SupabaseEmail where
  email_id : String
  is_starred : Bool
  tags : List Tag
  deriving DecidableEq, Repr

/-- The `Email` shape returned by `fetchEmailsByTags` (tagFiltering.ts):
the Supabase base row merged with the Gmail detail fields. -/
structure FilteredEmail where
  email_id : String
  thread_id : Option String
  is_starred : Option Bool
  subject : Option String
  snippet : Option String
  deriving DecidableEq, Repr

/-- The `EmailItem` shape of the emails list.  The locale-dependent display
fields (`sender`, `senderAddress`, `date`, `dateObj`) carry no logic that
any claim quantifies over and are omitted. -/
structure EmailItem where
  id : String
  threadId : String
  subject : String
  excerpt : String
  read : Bool
  starred : Bool
  tags : List Tag
  deriving DecidableEq, Repr

/-- `getHeader` (emails list helpers): case-insensitive header lookup,
empty string when absent. -/
def getHeader (headers : List (String × String)) (name : String) : String :=
  match headers.find? (fun h => strToLower h.1 = strToLower name) with
  | some h => h.2
  | none => ""

/-- The `EmailItem` built from a fetched Gmail message inside
`processAndMergeEmails` (emails list lines 194-213): header-derived
subject (defaulting to `'(No Subject)'`), snippet excerpt, read state from
the `UNREAD` label (an absent label list counts as unread), and star/tags
from the Supabase row when present. -/
def mkEmailItem (supabaseMap : List (String × SupabaseEmail)) (msg : GmailMsg) :
    EmailItem :=
  let supabaseDetail := mapLookup supabaseMap msg.id
  { id := msg.id
    threadId := msg.threadId
    subject := strOr (getHeader msg.headers "Subject") "(No Subject)"
    excerpt := msg.snippet.getD ""
    read := match msg.labelIds with
            | some ls => ¬ ls.contains "UNREAD"
            | none => false
    starred := (supabaseDetail.map (fun d => d.is_starred)).getD false
    tags := (supabaseDetail.map (fun d => d.tags)).getD [] }

/-- The `updatedCache` of `processAndMergeEmails` (emails list lines
192-215): cache entries built for the fetched messages (joined with the
Supabase rows) overlaid on the current cache. -/
def mergedEmailCache (fetchedGmailMessages : List GmailMsg)
    (supabaseData : List SupabaseEmail) (currentCache : List (String × EmailItem)) :
    List (String × EmailItem) :=
  currentCache ++
    fetchedGmailMessages.map
      (fun msg => (msg.id, mkEmailItem (supabaseData.map (fun d => (d.email_id, d))) msg))

/-- `processAndMergeEmails` (emails list lines 184-223): build the updated
cache and read the page back out of it in the order of `messageIds`,
dropping ids not present in the cache. -/
def processAndMergeEmails (messageIds : List String)
    (fetchedGmailMessages : List GmailMsg) (supabaseData : List SupabaseEmail)
    (currentCache : List (String × EmailItem)) :
    List EmailItem × List (String × EmailItem) :=
  (messageIds.filterMap
      (fun id => mapLookup (mergedEmailCache fetchedGmailMessages supabaseData currentCache) id),
   mergedEmailCache fetchedGmailMessages supabaseData currentCache)

/-- The `EmailItem` built from a filtered email in the multi-tag filter
branch of `loadData` (emails list lines 286-303). -/
def mkFilteredEmailItem (supabaseMap : List (String × SupabaseEmail))
    (fe : FilteredEmail) : EmailItem :=
  let supabaseDetail := mapLookup supabaseMap fe.email_id
  { id := fe.email_id
    threadId := jsOrStr fe.thread_id ""
    subject := jsOrStr fe.subject "(No Subject)"
    excerpt := jsOrStr fe.snippet ""
    read := true
    starred := fe.is_starred.getD false
    tags := (supabaseDetail.map (fun d => d.tags)).getD [] }

/-- The `pageToken` state of the emails list: `undefined` initially,
`null` for the first page, or an opaque token string. -/
inductive PageTok where
  | undef
  | nul
  | tok (s : String)
  deriving DecidableEq, Repr

/-- JS `pageToken || ''`. -/
def pageTokStr : PageTok → String
  | .tok s => s
  | _ => ""

/-- The React state of the `EmailsList` component, including the four refs
used for change detection. -/
structure EmailsListState where
  allEmails : List EmailItem
  emailCache : List (String × EmailItem)
  pageToken : PageTok
  nextPageToken : Option String
  prevPageTokens : List String
  selectedEmails : List String
  selectAll : Bool
  error : Option String
  refreshKey : Nat
  pageTokenRef : PageTok
  activeFilterNameRef : Option String
  searchQueryRef : Option String
  filterTagsParamRef : Option String
  deriving Repr

/-- The URL-derived inputs of one `loadData` run: route thread id, legacy
single-tag filter (`tag`/`priority` parameter), free-text search query,
multi-tag filter parameter with its mode, and the active tab. -/
structure ViewParams where
  threadId : Option String
  activeFilterName : Option String
  searchQuery : Option String
  filterTagsParam : Option String
  filterMode : FilterMode
  activeTab : String
  deriving Repr

/-- The remote world as seen by one `loadData` run: each fetch is a total
function of its request (this models the successful completion of the
fetches; the failure propagation of the individual endpoints is modelled
separately above). -/
structure FetchEnv where
  emailsByTags : List String → FilterMode → List FilteredEmail
  searchResult : List String
  tagIdentifiers : List String
  metadataPage : Bool → PageTok → List String × Option String
  detailsFor : List String → List GmailMsg
  supaFor : List String → List SupabaseEmail

/-- The observable result of one `loadData` run: the committed state, the
cursor sent to the paged metadata endpoint (when the paged branch ran) and
the id list sent to the detail-fetch endpoint (when a detail fetch was
issued). -/
structure StepOut where
  state : EmailsListState
  pagedCursor : Option PageTok
  detailFetchIds : Option (List String)

/-- The tail of every completed `loadData` run (emails list lines 396-411)
together with the ref assignments of the effect body (lines 430-434).
`loadData` is async and suspends at its first `await`; the effect body then
assigns the four refs to the current render's values (`renderPageToken` is
the render's `pageToken` closure value) before any awaited fetch can
resolve.  The selection-clearing comparison at lines 402-411 therefore
executes only after the refs already hold the values it compares them
against. -/
def finishLoad (p : ViewParams) (renderPageToken : PageTok) (st : EmailsListState)
    (items : List EmailItem) (cache : List (String × EmailItem)) : EmailsListState :=
  let st1 := { st with
    allEmails := items
    emailCache := cache
    pageTokenRef := renderPageToken
    activeFilterNameRef := p.activeFilterName
    searchQueryRef := p.searchQuery
    filterTagsParamRef := p.filterTagsParam }
  if renderPageToken ≠ st1.pageTokenRef ∨ p.activeFilterName ≠ st1.activeFilterNameRef ∨
      p.searchQuery ≠ st1.searchQueryRef ∨ p.filterTagsParam ≠ st1.filterTagsParamRef then
    { st1 with selectedEmails := [], selectAll := false }
  else st1

/-- The early returns of `loadData` (empty search result, empty legacy-tag
result): the list is cleared and the run ends before the selection-clearing
comparison; the effect body has still assigned the refs. -/
def earlyFinish (p : ViewParams) (renderPageToken : PageTok) (st : EmailsListState)
    (items : List EmailItem) : EmailsListState :=
  { st with
    allEmails := items
    pageTokenRef := renderPageToken
    activeFilterNameRef := p.activeFilterName
    searchQueryRef := p.searchQuery
    filterTagsParamRef := p.filterTagsParam }

/-- The common tail of the search, legacy-tag and paged branches of
`loadData` (emails list lines 369-394): when the page has message ids,
details are fetched for exactly the ids missing from the cache, the
Supabase rows are fetched for the whole page, and `processAndMergeEmails`
produces the list and the updated cache; an empty page clears the list and
keeps the cache. -/
def commonTail (env : FetchEnv) (p : ViewParams) (s : EmailsListState)
    (st : EmailsListState) (messageIds : List String) (pagedCursor : Option PageTok) :
    StepOut :=
  if messageIds.length > 0 then
    let idsToFetchDetails := messageIds.filter (fun id => ¬ mapHas s.emailCache id)
    let fetchedGmailMessages :=
      if idsToFetchDetails.length > 0 then env.detailsFor idsToFetchDetails else []
    let supabaseData := env.supaFor messageIds
    let pm := processAndMergeEmails messageIds fetchedGmailMessages supabaseData s.emailCache
    { state := finishLoad p s.pageToken st pm.1 pm.2
      pagedCursor := pagedCursor
      detailFetchIds := if idsToFetchDetails.length > 0 then some idsToFetchDetails else none }
  else
    { state := finishLoad p s.pageToken st [] s.emailCache
      pagedCursor := pagedCursor
      detailFetchIds := none }

/-- One run of the data-fetching effect of `EmailsList` (emails list lines
226-449): the thread-view early return, the `isPaging` reset of the cursor
state, the four mutually exclusive view branches (multi-tag filter, search,
legacy tag, paged) and the common merge tail.  State updates follow the
source's `setX` calls in program order; the refs are assigned at the first
suspension of `loadData`, before any fetch result is processed. -/
def effectStep (env : FetchEnv) (p : ViewParams) (s : EmailsListState) : StepOut :=
  if optTruthy p.threadId then
    { state := earlyFinish p s.pageToken s s.allEmails
      pagedCursor := none
      detailFetchIds := none }
  else
    let isPaging := s.pageToken ≠ s.pageTokenRef ∧ s.pageToken ≠ PageTok.undef
    let s0 := if ¬ isPaging then { s with nextPageToken := none, prevPageTokens := [] } else s
    if optTruthy p.filterTagsParam then
      let s1 := { s0 with pageToken := PageTok.nul, nextPageToken := none, prevPageTokens := [] }
      let tagIds := splitComma (p.filterTagsParam.getD "")
      let fetchedFilteredEmails := env.emailsByTags tagIds p.filterMode
      if fetchedFilteredEmails.length > 0 then
        let filteredEmailIds := fetchedFilteredEmails.map (fun fe => fe.email_id)
        let supabaseData := env.supaFor filteredEmailIds
        let supabaseMap := supabaseData.map (fun d => (d.email_id, d))
        let items := fetchedFilteredEmails.map (mkFilteredEmailItem supabaseMap)
        let newCacheEntries := items.map (fun it => (it.id, it))
        let finalCache := s.emailCache ++ newCacheEntries
        { state := finishLoad p s.pageToken s1 items finalCache
          pagedCursor := none
          detailFetchIds := none }
      else
        { state := finishLoad p s.pageToken s1 [] s.emailCache
          pagedCursor := none
          detailFetchIds := none }
    else if optTruthy p.searchQuery then
      let s1 := { s0 with pageToken := PageTok.nul, nextPageToken := none, prevPageTokens := [] }
      let messageIds := env.searchResult
      if messageIds.length = 0 then
        { state := earlyFinish p s.pageToken s1 []
          pagedCursor := none
          detailFetchIds := none }
      else
        commonTail env p s s1 messageIds none
    else if optTruthy p.activeFilterName then
      let s1 := { s0 with pageToken := PageTok.nul, nextPageToken := none, prevPageTokens := [] }
      let messageIds := env.tagIdentifiers
      if messageIds.length = 0 then
        { state := earlyFinish p s.pageToken s1 []
          pagedCursor := none
          detailFetchIds := none }
      else
        commonTail env p s s1 messageIds none
    else
      let result := env.metadataPage (p.activeTab = "important") s.pageToken
      let s1 := { s0 with nextPageToken := jsOrNull result.2 }
      commonTail env p s s1 result.1 (some s.pageToken)

/-- `goToNextPage` (emails list lines 618-623): with a truthy next token,
push the current token (or `''`) on the prior stack and move forward. -/
def goToNextPage (s : EmailsListState) : EmailsListState :=
  match s.nextPageToken with
  | some t =>
      if ¬ (t = "") then
        { s with
          prevPageTokens := s.prevPageTokens ++ [pageTokStr s.pageToken]
          pageToken := PageTok.tok t }
      else s
  | none => s

/-- `goToPrevPage` (emails list lines 625-631): with a non-empty prior
stack, pop the last token and make it current. -/
def goToPrevPage (s : EmailsListState) : EmailsListState :=
  if s.prevPageTokens.length > 0 then
    { s with
      prevPageTokens := s.prevPageTokens.dropLast
      pageToken := PageTok.tok (s.prevPageTokens.getLastD "") }
  else s

/-- `triggerRefresh` (emails list lines 633-640): outside of the three
filtered views and while not loading, clear the whole cache, reset to the
first page, clear the error and bump the refresh key. -/
def triggerRefresh (p : ViewParams) (isLoading : Bool) (s : EmailsListState) :
    EmailsListState :=
  if ¬ optTruthy p.activeFilterName && ¬ optTruthy p.searchQuery &&
      ¬ optTruthy p.filterTagsParam && ¬ isLoading then
    { s with
      emailCache := []
      pageToken := PageTok.nul
      error := none
      refreshKey := s.refreshKey + 1 }
  else s

/-! # Theorems -/

/-- C2 counterexample: the email tag-filter function called with an empty
selection returns the empty list, not the user's email list unchanged — the
store holds the single email `e1`, and the result drops it. -/
theorem emptySelection_email_counterexample :
    fetchEmailsByTagsIds [⟨"e1", ["t1"]⟩] [] FilterMode.any = [] ∧
    ¬ (fetchEmailsByTagsIds [⟨"e1", ["t1"]⟩] [] FilterMode.any = ["e1"]) := by
  decide

/-- C2 (amended): an empty tag selection passes every item unchanged only
in the project-card display filter (with an empty search term the card list
is returned as is); the fetch-based email and calendar tag filters instead
return the empty list when invoked with an empty selection. -/
theorem emptySelection_behavior :
    (∀ (cards : List TimelineCardItem) (mode : FilterMode),
      filteredCardsForDisplay cards "" [] mode = cards) ∧
    (∀ (db : List EmailRow) (mode : FilterMode),
      fetchEmailsByTagsIds db [] mode = []) ∧
    (∀ (events : List CalEventItem) (mode : FilterMode),
      fetchCalendarEventsByTagsModel events [] mode = []) := by
  refine ⟨fun cards mode => ?_, fun db mode => ?_, fun events mode => ?_⟩
  · simp [filteredCardsForDisplay, cardMatchesSearch, cardPassesTagFilter]
  · simp [fetchEmailsByTagsIds]
  · simp [fetchCalendarEventsByTagsModel]

/-- C8: for every calendar event with both timestamps present, the
recent-activity classifier yields a deletion at `updated` when the status
is `cancelled`; otherwise a creation at `created` when `updated − created`
is below 5 seconds, and an update at `updated` otherwise. -/
theorem classifyRecentEvent_spec (now : Int) (e : ActivityCalEvent) (c u : Int)
    (hc : e.created = some c) (hu : e.updated = some u) :
    (e.status = some "cancelled" →
      classifyRecentEvent now e = some (TimelineEventType.calendarEventDeleted, u)) ∧
    (¬ e.status = some "cancelled" → u - c < 5000 →
      classifyRecentEvent now e = some (TimelineEventType.calendarEventCreated, c)) ∧
    (¬ e.status = some "cancelled" → ¬ (u - c < 5000) →
      classifyRecentEvent now e = some (TimelineEventType.calendarEventUpdated, u)) := by
  unfold classifyRecentEvent
  rw [hc, hu]
  refine ⟨fun hs => ?_, fun hs hlt => ?_, fun hs hge => ?_⟩
  · simp [hs]
  · simp [hs, hlt]
  · simp [hs, hge]

/-- C8 witness: an event updated 2 s after creation classifies as a
creation at the creation time; one updated 10 min after creation classifies
as an update at the update time; a cancelled one classifies as a deletion
at the update time. -/
theorem classifyRecentEvent_witness :
    classifyRecentEvent 99 ⟨"ev1", none, some 0, some 2000⟩
      = some (TimelineEventType.calendarEventCreated, 0) ∧
    classifyRecentEvent 99 ⟨"ev2", none, some 0, some 600000⟩
      = some (TimelineEventType.calendarEventUpdated, 600000) ∧
    classifyRecentEvent 99 ⟨"ev3", some "cancelled", some 0, some 600000⟩
      = some (TimelineEventType.calendarEventDeleted, 600000) :=
  ⟨(classifyRecentEvent_spec 99 ⟨"ev1", none, some 0, some 2000⟩ 0 2000 rfl rfl).2.1
      (by decide) (by decide),
   (classifyRecentEvent_spec 99 ⟨"ev2", none, some 0, some 600000⟩ 0 600000 rfl rfl).2.2
      (by decide) (by decide),
   (classifyRecentEvent_spec 99 ⟨"ev3", some "cancelled", some 0, some 600000⟩ 0 600000
      rfl rfl).1 rfl⟩

/-- C9 counterexample: replacing the tags of calendar event `e1` by `t2`
when the insert statement fails (after the delete succeeded) reports the
failure, but the store is left changed — the previously stored association
`(e1, t1)` is gone. -/
theorem replaceTags_partial_commit_counterexample :
    (setTagsForCalendarEventModel ⟨false, true⟩ ⟨[("e1", "t1")]⟩ "e1" ["t2"]).1
      = WriteResult.err ∧
    ¬ ((setTagsForCalendarEventModel ⟨false, true⟩ ⟨[("e1", "t1")]⟩ "e1" ["t2"]).2
        = ⟨[("e1", "t1")]⟩) := by
  decide

/-- C9 (amended): on a write-path failure the error is surfaced and the
operation reported as failed, and a failure of the *first* statement leaves
the store unchanged; but a failure of a later statement leaves the earlier
statements committed — a failed insert in a replace-tags operation leaves
the event/card with its old associations already deleted, and a failed
tag-link insert in `createCard` leaves the card row created without its
tags. -/
theorem writePath_error_surfacing :
    (∀ (oc : ReplaceTagsOutcome) (db : CalTagTable) (eventId : String)
        (tagIds : List String), oc.deleteFails = true →
      setTagsForCalendarEventModel oc db eventId tagIds = (WriteResult.err, db)) ∧
    (∀ (db : CalTagTable) (eventId t : String) (ts : List String),
      (setTagsForCalendarEventModel ⟨false, true⟩ db eventId (t :: ts)).1
          = WriteResult.err ∧
      (setTagsForCalendarEventModel ⟨false, true⟩ db eventId (t :: ts)).2.rows
          = db.rows.filter (fun r => ¬ (r.1 = eventId))) ∧
    (∀ (oc : ReplaceTagsOutcome) (db : TimelineTagTable) (cardId : String)
        (tagIds : List String), oc.deleteFails = true →
      setTagsForTimelineCardModel oc db cardId tagIds = (WriteResult.err, db)) ∧
    (∀ (db : TimelineTagTable) (cardId t : String) (ts : List String),
      (setTagsForTimelineCardModel ⟨false, true⟩ db cardId (t :: ts)).1
          = WriteResult.err ∧
      (setTagsForTimelineCardModel ⟨false, true⟩ db cardId (t :: ts)).2.rows
          = db.rows.filter (fun r => ¬ (r.1 = cardId))) ∧
    (∀ (oc : CreateCardOutcome) (db : CardsDb) (newId title content : String)
        (tagIds : List String), oc.cardInsertFails = true →
      createCardModel oc db newId title content tagIds = (WriteResult.err, db)) ∧
    (∀ (db : CardsDb) (newId title content t : String) (ts : List String),
      (createCardModel ⟨false, true, false⟩ db newId title content (t :: ts)).1
          = WriteResult.err ∧
      (createCardModel ⟨false, true, false⟩ db newId title content (t :: ts)).2.cards
          = db.cards ++ [(newId, title, content)]) := by
  refine ⟨fun oc db eventId tagIds h => ?_, fun db eventId t ts => ?_,
          fun oc db cardId tagIds h => ?_, fun db cardId t ts => ?_,
          fun oc db newId title content tagIds h => ?_, fun db newId title content t ts => ?_⟩
  · simp [setTagsForCalendarEventModel, h]
  · simp [setTagsForCalendarEventModel]
  · simp [setTagsForTimelineCardModel, h]
  · simp [setTagsForTimelineCardModel]
  · simp [createCardModel, h]
  · simp [createCardModel]

/-- C9 witness: the amended statement evaluated at a concrete store — a
failing delete leaves the calendar-tag store `[(e1, t1)]` unchanged, and a
failing insert after a successful delete reports the error with the
filtered (partially committed) store. -/
theorem writePath_error_surfacing_witness :
    setTagsForCalendarEventModel ⟨true, false⟩ ⟨[("e1", "t1")]⟩ "e1" ["t2"]
        = (WriteResult.err, ⟨[("e1", "t1")]⟩) ∧
    (setTagsForCalendarEventModel ⟨false, true⟩ ⟨[("e1", "t1")]⟩ "e1" ["t2"]).2.rows
        = ([("e1", "t1")] : List (String × String)).filter (fun r => ¬ (r.1 = "e1")) :=
  ⟨writePath_error_surfacing.1 ⟨true, false⟩ ⟨[("e1", "t1")]⟩ "e1" ["t2"] rfl,
   (writePath_error_surfacing.2.1 ⟨[("e1", "t1")]⟩ "e1" "t2" []).2⟩

/-- C10: whenever the delete of the `email_tags` association row succeeds,
`removeTagFromEmail` returns `true` and the association stays removed, for
every outcome of the audit-log append — the log write is best effort and
its failure neither fails nor rolls back the removal. -/
theorem removeTag_bestEffort_log (oc : RemoveOutcome) (db : EmailTagDb)
    (userId emailId tagId : String)
    (hu : ¬ userId = "") (he : ¬ emailId = "") (ht : ¬ tagId = "")
    (hd : oc.deleteFails = false) :
    (removeTagFromEmailModel oc db userId emailId tagId).1 = true ∧
    (removeTagFromEmailModel oc db userId emailId tagId).2.emailTags
      = db.emailTags.filter (fun r => ¬ (r = (emailId, tagId))) := by
  unfold removeTagFromEmailModel
  rw [if_neg (by simp [hu, he, ht])]
  rw [if_neg (by simp [hd])]
  by_cases hl : oc.logFails = true <;> simp [hl]

/-- C10 witness: with the log append failing, removing tag `t1` from email
`e1` still returns `true` and leaves only the `(e1, t2)` association. -/
theorem removeTag_bestEffort_log_witness :
    (removeTagFromEmailModel ⟨false, true⟩ ⟨[("e1", "t1"), ("e1", "t2")], []⟩
        "u" "e1" "t1").1 = true ∧
    (removeTagFromEmailModel ⟨false, true⟩ ⟨[("e1", "t1"), ("e1", "t2")], []⟩
        "u" "e1" "t1").2.emailTags
      = ([("e1", "t1"), ("e1", "t2")] : List (String × String)).filter
          (fun r => ¬ (r = ("e1", "t1"))) :=
  removeTag_bestEffort_log ⟨false, true⟩ ⟨[("e1", "t1"), ("e1", "t2")], []⟩
    "u" "e1" "t1" (by decide) (by decide) (by decide) rfl

/-- Membership in the `'any'`-mode match loop: an id is collected exactly
when it is already in the accumulator or keys some remaining row. -/
theorem mem_matchFold_any (D : List (String × List String)) (tagIds : List String)
    (rows : List (String × List String)) (acc : List String) (x : String) :
    x ∈ rows.foldl (matchStep D tagIds FilterMode.any) acc ↔
      x ∈ acc ∨ ∃ row ∈ rows, row.1 = x := by
  induction rows generalizing acc with
  | nil => simp
  | cons r rs ih =>
      rw [List.foldl_cons, ih]
      show x ∈ matchStep D tagIds FilterMode.any acc r ∨ _ ↔ _
      simp only [matchStep]
      by_cases h : acc.contains r.1 = true
      · have hx : r.1 ∈ acc := by simpa using h
        rw [if_pos h]
        constructor
        · rintro (hxa | ⟨row, hrow, hk⟩)
          · exact Or.inl hxa
          · exact Or.inr ⟨row, List.mem_cons_of_mem r hrow, hk⟩
        · rintro (hxa | ⟨row, hrow, hk⟩)
          · exact Or.inl hxa
          · rcases List.mem_cons.mp hrow with heq | hmem
            · subst heq
              exact Or.inl (hk ▸ hx)
            · exact Or.inr ⟨row, hmem, hk⟩
      · rw [if_neg h]
        constructor
        · rintro (hxa | ⟨row, hrow, hk⟩)
          · rcases List.mem_append.mp hxa with ha | hb
            · exact Or.inl ha
            · exact Or.inr ⟨r, List.mem_cons_self r rs, (List.mem_singleton.mp hb).symm⟩
          · exact Or.inr ⟨row, List.mem_cons_of_mem r hrow, hk⟩
        · rintro (hxa | ⟨row, hrow, hk⟩)
          · exact Or.inl (List.mem_append.mpr (Or.inl hxa))
          · rcases List.mem_cons.mp hrow with heq | hmem
            · subst heq
              exact Or.inl (List.mem_append.mpr (Or.inr (List.mem_singleton.mpr hk.symm)))
            · exact Or.inr ⟨row, hmem, hk⟩

/-- Membership in the `'all'`-mode match loop: an id is collected exactly
when it is already in the accumulator or keys some remaining row whose
`tagsForId` union over the full result set contains every requested tag. -/
theorem mem_matchFold_all (D : List (String × List String)) (tagIds : List String)
    (rows : List (String × List String)) (acc : List String) (x : String) :
    x ∈ rows.foldl (matchStep D tagIds FilterMode.all) acc ↔
      x ∈ acc ∨ ∃ row ∈ rows, row.1 = x ∧
        tagIds.all (fun t => (tagsForId D x).contains t) = true := by
  induction rows generalizing acc with
  | nil => simp
  | cons r rs ih =>
      rw [List.foldl_cons, ih]
      show x ∈ matchStep D tagIds FilterMode.all acc r ∨ _ ↔ _
      simp only [matchStep]
      by_cases h : acc.contains r.1 = true
      · have hx : r.1 ∈ acc := by simpa using h
        rw [if_pos h]
        constructor
        · rintro (hxa | ⟨row, hrow, hk⟩)
          · exact Or.inl hxa
          · exact Or.inr ⟨row, List.mem_cons_of_mem r hrow, hk⟩
        · rintro (hxa | ⟨row, hrow, hk⟩)
          · exact Or.inl hxa
          · rcases List.mem_cons.mp hrow with heq | hmem
            · subst heq
              exact Or.inl (hk.1 ▸ hx)
            · exact Or.inr ⟨row, hmem, hk⟩
      · rw [if_neg h]
        by_cases hc : tagIds.all (fun t => (tagsForId D r.1).contains t) = true
        · rw [if_pos hc]
          constructor
          · rintro (hxa | ⟨row, hrow, hk⟩)
            · rcases List.mem_append.mp hxa with ha | hb
              · exact Or.inl ha
              · have hxr : x = r.1 := List.mem_singleton.mp hb
                exact Or.inr ⟨r, List.mem_cons_self r rs, hxr.symm, by rw [hxr]; exact hc⟩
            · exact Or.inr ⟨row, List.mem_cons_of_mem r hrow, hk⟩
          · rintro (hxa | ⟨row, hrow, hk⟩)
            · exact Or.inl (List.mem_append.mpr (Or.inl hxa))
            · rcases List.mem_cons.mp hrow with heq | hmem
              · subst heq
                exact Or.inl (List.mem_append.mpr (Or.inr (List.mem_singleton.mpr hk.1.symm)))
              · exact Or.inr ⟨row, hmem, hk⟩
        · rw [if_neg hc]
          constructor
          · rintro (hxa | ⟨row, hrow, hk⟩)
            · exact Or.inl hxa
            · exact Or.inr ⟨row, List.mem_cons_of_mem r hrow, hk⟩
          · rintro (hxa | ⟨row, hrow, hk⟩)
            · exact Or.inl hxa
            · rcases List.mem_cons.mp hrow with heq | hmem
              · exfalso
                apply hc
                have hrx : r.1 = x := by rw [← heq]; exact hk.1
                rw [hrx]
                exact hk.2
              · exact Or.inr ⟨row, hmem, hk⟩

/-- Membership in the modelled PostgREST result set: a row is returned
exactly for each stored email with at least one association among the
requested tags, carrying its matching association rows. -/
theorem mem_emailTagQuery (db : List EmailRow) (tagIds : List String)
    (row : String × List String) :
    row ∈ emailTagQuery db tagIds ↔
      ∃ e ∈ db, ¬ (e.tag_ids.filter (fun t => tagIds.contains t)) = [] ∧
        row = (e.email_id, e.tag_ids.filter (fun t => tagIds.contains t)) := by
  unfold emailTagQuery
  rw [List.mem_filterMap]
  constructor
  · rintro ⟨e, he, hfe⟩
    by_cases hm : (e.tag_ids.filter (fun t => tagIds.contains t)).isEmpty = true
    · rw [if_pos hm] at hfe
      exact absurd hfe (by simp)
    · rw [if_neg hm] at hfe
      refine ⟨e, he, ?_, (Option.some.inj hfe).symm⟩
      intro hnil
      exact hm (by rw [hnil]; rfl)
  · rintro ⟨e, he, hne, hrow⟩
    refine ⟨e, he, ?_⟩
    rw [if_neg (by simpa using hne), hrow]

/-- Membership in `tagsForId`: a tag id occurs exactly when some result row
with the given email id carries it. -/
theorem mem_tagsForId (D : List (String × List String)) (x t : String) :
    t ∈ tagsForId D x ↔ ∃ row ∈ D, row.1 = x ∧ t ∈ row.2 := by
  unfold tagsForId
  simp only [List.mem_flatten, List.mem_map, List.mem_filter]
  constructor
  · rintro ⟨l, ⟨row, ⟨hrowD, hrowx⟩, rfl⟩, ht⟩
    exact ⟨row, hrowD, by simpa using hrowx, ht⟩
  · rintro ⟨row, hrowD, hrowx, ht⟩
    exact ⟨row.2, ⟨row, ⟨hrowD, by simpa using hrowx⟩, rfl⟩, ht⟩

/-- The id-level characterization of `fetchEmailsByTags`: for a store with
unique email ids and a non-empty selection, an email id is selected exactly
when the email exists and its tag set meets the selection (`'any'`) or
includes the selection (`'all'`). -/
theorem fetchEmailsByTagsIds_mem (db : List EmailRow) (tagIds : List String)
    (mode : FilterMode) (x : String) :
    (db.map (fun e => e.email_id)).Nodup → ¬ tagIds = [] →
    (x ∈ fetchEmailsByTagsIds db tagIds mode ↔
      ∃ e ∈ db, e.email_id = x ∧
        match mode with
        | FilterMode.any => ∃ t ∈ tagIds, t ∈ e.tag_ids
        | FilterMode.all => ∀ t ∈ tagIds, t ∈ e.tag_ids) := by
  intro hnodup hne
  have hlen : ¬ tagIds.length = 0 := by simpa using hne
  unfold fetchEmailsByTagsIds matchingEmailIds
  rw [if_neg hlen]
  cases mode with
  | any =>
      rw [mem_matchFold_any]
      simp only [List.not_mem_nil, false_or]
      constructor
      · rintro ⟨row, hrow, hx⟩
        rcases (mem_emailTagQuery db tagIds row).mp hrow with ⟨e, he, hneF, hroweq⟩
        subst hroweq
        refine ⟨e, he, hx, ?_⟩
        have hex : ∃ a ∈ e.tag_ids, (tagIds.contains a) = true := by
          rcases List.exists_mem_of_ne_nil _ hneF with ⟨t, ht⟩
          rcases List.mem_filter.mp ht with ⟨ht1, ht2⟩
          exact ⟨t, ht1, by simpa using ht2⟩
        rcases hex with ⟨t, ht1, ht2⟩
        exact ⟨t, by simpa using ht2, ht1⟩
      · rintro ⟨e, he, hex, t, htS, hte⟩
        have hmem : t ∈ e.tag_ids.filter (fun t => tagIds.contains t) :=
          List.mem_filter.mpr ⟨hte, by simpa using htS⟩
        have hneF : ¬ (e.tag_ids.filter (fun t => tagIds.contains t)) = [] := by
          intro h0
          rw [h0] at hmem
          exact absurd hmem (List.not_mem_nil t)
        exact ⟨(e.email_id, e.tag_ids.filter (fun t => tagIds.contains t)),
          (mem_emailTagQuery db tagIds _).mpr ⟨e, he, hneF, rfl⟩, hex⟩
  | all =>
      rw [mem_matchFold_all]
      simp only [List.not_mem_nil, false_or]
      constructor
      · rintro ⟨row, hrow, hx, hall⟩
        rcases (mem_emailTagQuery db tagIds row).mp hrow with ⟨e, he, hneF, hroweq⟩
        subst hroweq
        refine ⟨e, he, hx, ?_⟩
        intro t htS
        have ht1 : t ∈ tagsForId (emailTagQuery db tagIds) x := by
          have h2 := List.all_eq_true.mp hall t htS
          simpa using h2
        rcases (mem_tagsForId _ x t).mp ht1 with ⟨row2, hrow2, hrow2x, htrow2⟩
        rcases (mem_emailTagQuery db tagIds row2).mp hrow2 with ⟨e2, he2, hneF2, hrow2eq⟩
        have he2x : e2.email_id = x := by
          rw [hrow2eq] at hrow2x
          exact hrow2x
        have hee : e2 = e := List.inj_on_of_nodup_map hnodup he2 he (by rw [he2x]; exact hx.symm)
        have hte2 : t ∈ e2.tag_ids := by
          rw [hrow2eq] at htrow2
          exact (List.mem_filter.mp htrow2).1
        rw [← hee]
        exact hte2
      · rintro ⟨e, he, hex, hall⟩
        rcases List.exists_mem_of_ne_nil tagIds hne with ⟨t0, ht0⟩
        have hm0 : t0 ∈ e.tag_ids.filter (fun t => tagIds.contains t) :=
          List.mem_filter.mpr ⟨hall t0 ht0, by simpa using ht0⟩
        have hneF : ¬ (e.tag_ids.filter (fun t => tagIds.contains t)) = [] := by
          intro h0
          rw [h0] at hm0
          exact absurd hm0 (List.not_mem_nil t0)
        have hrowQ : (e.email_id, e.tag_ids.filter (fun t => tagIds.contains t))
            ∈ emailTagQuery db tagIds :=
          (mem_emailTagQuery db tagIds _).mpr ⟨e, he, hneF, rfl⟩
        refine ⟨(e.email_id, e.tag_ids.filter (fun t => tagIds.contains t)), hrowQ, hex, ?_⟩
        rw [List.all_eq_true]
        intro t htS
        have htm : t ∈ e.tag_ids.filter (fun t => tagIds.contains t) :=
          List.mem_filter.mpr ⟨hall t htS, by simpa using htS⟩
        have : t ∈ tagsForId (emailTagQuery db tagIds) x :=
          (mem_tagsForId _ x t).mpr
            ⟨(e.email_id, e.tag_ids.filter (fun t => tagIds.contains t)), hrowQ, hex, htm⟩
        simpa using this

/-- The membership characterization of the calendar event filter. -/
theorem filterEventsByTags_mem (events : List CalEventItem) (tagIds : List String)
    (mode : FilterMode) (ev : CalEventItem) :
    ev ∈ filterEventsByTags events tagIds mode ↔
      ev ∈ events ∧
        match mode with
        | FilterMode.any => ∃ t ∈ tagIds, t ∈ ev.tags.map (fun g => g.id)
        | FilterMode.all => ∀ t ∈ tagIds, t ∈ ev.tags.map (fun g => g.id) := by
  unfold filterEventsByTags
  rw [List.mem_filter]
  cases mode with
  | any => simp [List.any_eq_true]
  | all => simp [List.all_eq_true]

/-- The membership characterization of the project-card tag filter for a
non-empty selection. -/
theorem cardPassesTagFilter_iff (S : List String) (mode : FilterMode)
    (card : TimelineCardItem) (hne : ¬ S = []) :
    cardPassesTagFilter S mode card = true ↔
      match mode with
      | FilterMode.any => ∃ t ∈ S, t ∈ card.tags.map (fun g => g.id)
      | FilterMode.all => ∀ t ∈ S, t ∈ card.tags.map (fun g => g.id) := by
  unfold cardPassesTagFilter
  rw [if_neg (by simpa using hne)]
  cases mode with
  | any => simp [List.any_eq_true]
  | all => simp [List.all_eq_true]

/-- C1: for every entity kind and every non-empty selection, an item passes
the multi-tag filter in `'any'` mode exactly when its current tag-id set
meets the selection, and in `'all'` mode exactly when the selection is a
subset of its tag-id set — the same set-theoretic predicate for emails
(against a store with unique email ids), calendar events and project
cards. -/
theorem tagFilter_membership_spec :
    (∀ (db : List EmailRow) (tagIds : List String) (mode : FilterMode) (x : String),
      (db.map (fun e => e.email_id)).Nodup → ¬ tagIds = [] →
      (x ∈ fetchEmailsByTagsIds db tagIds mode ↔
        ∃ e ∈ db, e.email_id = x ∧
          match mode with
          | FilterMode.any => ∃ t ∈ tagIds, t ∈ e.tag_ids
          | FilterMode.all => ∀ t ∈ tagIds, t ∈ e.tag_ids)) ∧
    (∀ (events : List CalEventItem) (tagIds : List String) (mode : FilterMode)
        (ev : CalEventItem), ¬ tagIds = [] →
      (ev ∈ filterEventsByTags events tagIds mode ↔
        ev ∈ events ∧
          match mode with
          | FilterMode.any => ∃ t ∈ tagIds, t ∈ ev.tags.map (fun g => g.id)
          | FilterMode.all => ∀ t ∈ tagIds, t ∈ ev.tags.map (fun g => g.id))) ∧
    (∀ (S : List String) (mode : FilterMode) (card : TimelineCardItem), ¬ S = [] →
      (cardPassesTagFilter S mode card = true ↔
        match mode with
        | FilterMode.any => ∃ t ∈ S, t ∈ card.tags.map (fun g => g.id)
        | FilterMode.all => ∀ t ∈ S, t ∈ card.tags.map (fun g => g.id))) :=
  ⟨fun db tagIds mode x h1 h2 => fetchEmailsByTagsIds_mem db tagIds mode x h1 h2,
   fun events tagIds mode ev _ => filterEventsByTags_mem events tagIds mode ev,
   fun S mode card h => cardPassesTagFilter_iff S mode card h⟩

/-- C1 witness: over the store with emails `A` (tag t1), `B` (tags t1, t2)
and `C` (no tags) and selection t1, t2: `'all'` mode selects `B` and not
`A`; `'any'` mode selects `A`. -/
theorem tagFilter_membership_witness :
    "B" ∈ fetchEmailsByTagsIds
        [⟨"A", ["t1"]⟩, ⟨"B", ["t1", "t2"]⟩, ⟨"C", []⟩] ["t1", "t2"] FilterMode.all ∧
    ¬ "A" ∈ fetchEmailsByTagsIds
        [⟨"A", ["t1"]⟩, ⟨"B", ["t1", "t2"]⟩, ⟨"C", []⟩] ["t1", "t2"] FilterMode.all ∧
    "A" ∈ fetchEmailsByTagsIds
        [⟨"A", ["t1"]⟩, ⟨"B", ["t1", "t2"]⟩, ⟨"C", []⟩] ["t1", "t2"] FilterMode.any := by
  refine ⟨?_, ?_, ?_⟩
  · exact (tagFilter_membership_spec.1 [⟨"A", ["t1"]⟩, ⟨"B", ["t1", "t2"]⟩, ⟨"C", []⟩]
      ["t1", "t2"] FilterMode.all "B" (by decide) (by decide)).mpr (by decide)
  · intro h
    exact absurd ((tagFilter_membership_spec.1 [⟨"A", ["t1"]⟩, ⟨"B", ["t1", "t2"]⟩, ⟨"C", []⟩]
      ["t1", "t2"] FilterMode.all "A" (by decide) (by decide)).mp h) (by decide)
  · exact (tagFilter_membership_spec.1 [⟨"A", ["t1"]⟩, ⟨"B", ["t1", "t2"]⟩, ⟨"C", []⟩]
      ["t1", "t2"] FilterMode.any "A" (by decide) (by decide)).mpr (by decide)

/-- Mapping a `filterMap` back onto the inputs: when every element maps to
some output projecting back to it, the round trip is the identity. -/
theorem filterMap_map_eq_self {α β : Type} (l : List α) (f : α → Option β) (g : β → α)
    (h : ∀ a ∈ l, ∃ b, f a = some b ∧ g b = a) :
    (l.filterMap f).map g = l := by
  induction l with
  | nil => rfl
  | cons a as ih =>
      rcases h a (List.mem_cons_self a as) with ⟨b, hb, hg⟩
      simp only [List.filterMap_cons, hb, List.map_cons]
      rw [hg, ih (fun a' ha' => h a' (List.mem_cons_of_mem a ha'))]

/-- The association-list map lookup succeeds exactly for present keys. -/
theorem mapLookup_isSome_iff {α : Type} (m : List (String × α)) (k : String) :
    (mapLookup m k).isSome = true ↔ ∃ e ∈ m, e.1 = k := by
  simp [mapLookup, List.find?_isSome]

/-- The association-list membership test holds exactly for present keys. -/
theorem mapHas_iff {α : Type} (m : List (String × α)) (k : String) :
    mapHas m k = true ↔ ∃ e ∈ m, e.1 = k := by
  simp [mapHas, List.find?_isSome]

/-- In a map whose values record their own key, a successful lookup returns
a value recording the looked-up key. -/
theorem mapLookup_id {m : List (String × EmailItem)} {k : String} {v : EmailItem}
    (hw : ∀ kv ∈ m, kv.2.id = kv.1) (h : mapLookup m k = some v) : v.id = k := by
  unfold mapLookup at h
  rcases Option.map_eq_some'.mp h with ⟨kv, hfind, hv⟩
  have hmem : kv ∈ m.reverse := List.mem_of_find?_eq_some hfind
  have hkey : kv.1 = k := by simpa using List.find?_some hfind
  rw [← hv, hw kv (List.mem_reverse.mp hmem), hkey]

/-- The email merge is total: over a well-formed cache, when every listed
id is covered by the cache or by a fetched message, the merged page lists
exactly `messageIds`, in order. -/
theorem processAndMergeEmails_total (messageIds : List String)
    (fetched : List GmailMsg) (supa : List SupabaseEmail)
    (cache : List (String × EmailItem)) :
    (∀ kv ∈ cache, kv.2.id = kv.1) →
    (∀ id ∈ messageIds, mapHas cache id = true ∨ ∃ m ∈ fetched, m.id = id) →
    (processAndMergeEmails messageIds fetched supa cache).1.map (fun it => it.id)
      = messageIds := by
  intro hwf hcov
  unfold processAndMergeEmails
  apply filterMap_map_eq_self
  intro id hid
  have hwf2 : ∀ kv ∈ mergedEmailCache fetched supa cache, kv.2.id = kv.1 := by
    intro kv hkv
    rcases List.mem_append.mp hkv with h1 | h2
    · exact hwf kv h1
    · rcases List.mem_map.mp h2 with ⟨msg, hmsg, hkveq⟩
      rw [← hkveq]
      rfl
  have hsome : ∃ kv ∈ mergedEmailCache fetched supa cache, kv.1 = id := by
    rcases hcov id hid with hc | ⟨m, hm, hmid⟩
    · rcases (mapHas_iff cache id).mp hc with ⟨e, he, hek⟩
      exact ⟨e, List.mem_append.mpr (Or.inl he), hek⟩
    · exact ⟨(m.id, mkEmailItem (supa.map (fun d => (d.email_id, d))) m),
        List.mem_append.mpr (Or.inr (List.mem_map.mpr ⟨m, hm, rfl⟩)), hmid⟩
  have hs : (mapLookup (mergedEmailCache fetched supa cache) id).isSome = true :=
    (mapLookup_isSome_iff _ _).mpr hsome
  rcases Option.isSome_iff_exists.mp hs with ⟨v, hv⟩
  exact ⟨v, hv, mapLookup_id hwf2 hv⟩

/-- C3: the tag-merge step of the readers is total.  For the email reader,
over a well-formed cache, when every listed id is covered by the cache or a
fetched message, the merged page lists exactly the remote ids, in order;
a fetched message with no Supabase row yields an unstarred item with an
empty tag list, never an error.  For the calendar reader, a successful list
response merges every event exactly once in order, each event's tags being
its recorded rows (empty when it has none), and a failed tag fetch degrades
to empty tag lists while keeping every event. -/
theorem readerMerge_total :
    (∀ (messageIds : List String) (fetched : List GmailMsg) (supa : List SupabaseEmail)
        (cache : List (String × EmailItem)),
      (∀ kv ∈ cache, kv.2.id = kv.1) →
      (∀ id ∈ messageIds, mapHas cache id = true ∨ ∃ m ∈ fetched, m.id = id) →
      (processAndMergeEmails messageIds fetched supa cache).1.map (fun it => it.id)
        = messageIds) ∧
    (∀ (supa : List SupabaseEmail) (m : GmailMsg),
      (∀ d ∈ supa, ¬ d.email_id = m.id) →
      (mkEmailItem (supa.map (fun d => (d.email_id, d))) m).tags = [] ∧
      (mkEmailItem (supa.map (fun d => (d.email_id, d))) m).starred = false) ∧
    (∀ (resp : HttpResp (List CalEventItem)) (tagsMap : List (String × List Tag)),
      respOk resp.status = true →
      fetchCalendarEventsModel resp (Except.ok tagsMap)
        = Except.ok (mergeCalendarEventTags resp.body tagsMap)) ∧
    (∀ (events : List CalEventItem) (tagsMap : List (String × List Tag)),
      (mergeCalendarEventTags events tagsMap).map (fun e => e.id)
        = events.map (fun e => e.id)) ∧
    (∀ (events : List CalEventItem) (tagsMap : List (String × List Tag))
        (x : CalEventItem), x ∈ mergeCalendarEventTags events tagsMap →
      x.tags = (mapLookup tagsMap x.id).getD []) ∧
    (∀ (resp : HttpResp (List CalEventItem)), respOk resp.status = true →
      fetchCalendarEventsModel resp (Except.error ())
        = Except.ok (resp.body.map (fun e => { e with tags := [] }))) := by
  refine ⟨processAndMergeEmails_total, fun supa m hnone => ?_, fun resp tagsMap h => ?_,
    fun events tagsMap => ?_, fun events tagsMap x hx => ?_, fun resp h => ?_⟩
  · have hl : mapLookup (supa.map (fun d => (d.email_id, d))) m.id = none := by
      unfold mapLookup
      rw [List.find?_eq_none.mpr, Option.map_none']
      intro kv hkv
      rcases List.mem_map.mp (List.mem_reverse.mp hkv) with ⟨d, hd, hdeq⟩
      rw [← hdeq]
      simpa using hnone d hd
    constructor
    · show ((mapLookup (supa.map (fun d => (d.email_id, d))) m.id).map
        (fun d => d.tags)).getD [] = []
      rw [hl]
      rfl
    · show ((mapLookup (supa.map (fun d => (d.email_id, d))) m.id).map
        (fun d => d.is_starred)).getD false = false
      rw [hl]
      rfl
  · unfold fetchCalendarEventsModel
    rw [if_neg (by simp [h])]
    by_cases hlen : resp.body.length > 0
    · rw [if_pos hlen]
    · rw [if_neg hlen]
      have : resp.body = [] := List.length_eq_zero.mp (by omega)
      rw [this]
      rfl
  · unfold mergeCalendarEventTags
    rw [List.map_map]
    rfl
  · rcases List.mem_map.mp hx with ⟨e, he, hxeq⟩
    rw [← hxeq]
  · unfold fetchCalendarEventsModel
    rw [if_neg (by simp [h])]
    by_cases hlen : resp.body.length > 0
    · rw [if_pos hlen]
    · rw [if_neg hlen]
      have : resp.body = [] := List.length_eq_zero.mp (by omega)
      rw [this]
      rfl

/-- C3 witness: merging the page `m1, m2` (both fetched, no Supabase rows,
empty cache) lists exactly `m1, m2`; a fetched message with no Supabase
row gets the empty tag list; a successful calendar response with a failing
tag fetch keeps both events with empty tags. -/
theorem readerMerge_total_witness :
    (processAndMergeEmails ["m1", "m2"]
        [⟨"m1", "t1", none, none, []⟩, ⟨"m2", "t2", none, none, []⟩] [] []).1.map
        (fun it => it.id) = ["m1", "m2"] ∧
    (mkEmailItem (([] : List SupabaseEmail).map (fun d => (d.email_id, d)))
        ⟨"m1", "t1", none, none, []⟩).tags = [] ∧
    fetchCalendarEventsModel ⟨200, [⟨"e1", []⟩, ⟨"e2", []⟩]⟩ (Except.error ())
      = Except.ok [⟨"e1", []⟩, ⟨"e2", []⟩] :=
  ⟨readerMerge_total.1 ["m1", "m2"]
      [⟨"m1", "t1", none, none, []⟩, ⟨"m2", "t2", none, none, []⟩] [] []
      (by simp) (by decide),
   (readerMerge_total.2.1 [] ⟨"m1", "t1", none, none, []⟩ (by simp)).1,
   readerMerge_total.2.2.2.2.2 ⟨200, [⟨"e1", []⟩, ⟨"e2", []⟩]⟩ rfl⟩

/-- The selection-clearing comparison of `finishLoad` compares the render's
values against refs that were already assigned those same values at the
first suspension of `loadData`, so it never fires: `finishLoad` is a plain
record update. -/
theorem finishLoad_eq (p : ViewParams) (rpt : PageTok) (st : EmailsListState)
    (items : List EmailItem) (cache : List (String × EmailItem)) :
    finishLoad p rpt st items cache =
      { st with
        allEmails := items
        emailCache := cache
        pageTokenRef := rpt
        activeFilterNameRef := p.activeFilterName
        searchQueryRef := p.searchQuery
        filterTagsParamRef := p.filterTagsParam } := by
  unfold finishLoad
  simp

/-- C6: the checkbox multi-select is never cleared by a load-effect run —
the clearing comparison executes only after the refs were synchronously
overwritten with the very values being compared, so it is always false; in
particular, a paged load at a freshly changed page token (the claim's
clearing trigger) leaves a 3-element selection intact. -/
theorem selection_never_cleared :
    (∀ (env : FetchEnv) (p : ViewParams) (s : EmailsListState),
      (effectStep env p s).state.selectedEmails = s.selectedEmails ∧
      (effectStep env p s).state.selectAll = s.selectAll) ∧
    (effectStep
        ⟨fun _ _ => [], [], [], fun _ _ => ([], none), fun _ => [], fun _ => []⟩
        ⟨none, none, none, none, FilterMode.any, "all"⟩
        ⟨[], [], PageTok.tok "p2", none, [""], ["a", "b", "c"], false, none, 0,
          PageTok.undef, none, none, none⟩).state.selectedEmails
      = ["a", "b", "c"] := by
  constructor
  · intro env p s
    unfold effectStep commonTail
    dsimp only
    split_ifs <;> simp [finishLoad_eq, earlyFinish]
  · rfl

/-- Entering any non-paged view branch resets the page token, the forward
cursor and the prior-cursor stack. -/
theorem effectStep_nonPaged_resets (env : FetchEnv) (p : ViewParams)
    (s : EmailsListState) (hth : optTruthy p.threadId = false)
    (hnp : optTruthy p.filterTagsParam = true ∨ optTruthy p.searchQuery = true ∨
      optTruthy p.activeFilterName = true) :
    (effectStep env p s).state.pageToken = PageTok.nul ∧
    (effectStep env p s).state.nextPageToken = none ∧
    (effectStep env p s).state.prevPageTokens = [] := by
  unfold effectStep commonTail
  dsimp only
  split_ifs <;> simp_all [finishLoad_eq, earlyFinish]

/-- The paged branch requests the metadata page at the state's current
page token. -/
theorem effectStep_paged_cursor (env : FetchEnv) (p : ViewParams)
    (s : EmailsListState) (hth : optTruthy p.threadId = false)
    (hft : optTruthy p.filterTagsParam = false)
    (hsq : optTruthy p.searchQuery = false)
    (hfn : optTruthy p.activeFilterName = false) :
    (effectStep env p s).pagedCursor = some s.pageToken := by
  unfold effectStep commonTail
  dsimp only
  split_ifs <;> simp_all [finishLoad_eq, earlyFinish]

/-- C4: entering any non-paged view mode (multi-tag filter, free-text
search, or legacy single-tag view) resets the page token to `null` and
empties the forward cursor and the prior-cursor stack; a paged load always
requests the page at the current token, so a paged load run after such a
detour requests cursor `null` — the first page, not the abandoned one. -/
theorem modeSwitch_cursor_reset :
    (∀ (env : FetchEnv) (p : ViewParams) (s : EmailsListState),
      optTruthy p.threadId = false →
      (optTruthy p.filterTagsParam = true ∨ optTruthy p.searchQuery = true ∨
        optTruthy p.activeFilterName = true) →
      ((effectStep env p s).state.pageToken = PageTok.nul ∧
       (effectStep env p s).state.nextPageToken = none ∧
       (effectStep env p s).state.prevPageTokens = [])) ∧
    (∀ (env : FetchEnv) (p : ViewParams) (s : EmailsListState),
      optTruthy p.threadId = false → optTruthy p.filterTagsParam = false →
      optTruthy p.searchQuery = false → optTruthy p.activeFilterName = false →
      (effectStep env p s).pagedCursor = some s.pageToken) ∧
    (∀ (env1 env2 : FetchEnv) (p1 p2 : ViewParams) (s : EmailsListState),
      optTruthy p1.threadId = false →
      (optTruthy p1.filterTagsParam = true ∨ optTruthy p1.searchQuery = true ∨
        optTruthy p1.activeFilterName = true) →
      optTruthy p2.threadId = false → optTruthy p2.filterTagsParam = false →
      optTruthy p2.searchQuery = false → optTruthy p2.activeFilterName = false →
      (effectStep env2 p2 (effectStep env1 p1 s).state).pagedCursor
        = some PageTok.nul) :=
  ⟨fun env p s hth hnp => effectStep_nonPaged_resets env p s hth hnp,
   fun env p s hth hft hsq hfn => effectStep_paged_cursor env p s hth hft hsq hfn,
   fun env1 env2 p1 p2 s h1 h2 h3 h4 h5 h6 => by
    rw [effectStep_paged_cursor env2 p2 _ h3 h4 h5 h6,
      (effectStep_nonPaged_resets env1 p1 s h1 h2).1]⟩

/-- C4 witness: from a paged state at token `p7` with a prior stack, a
detour through the multi-tag filter view resets the cursors, and the
following paged load requests cursor `null` (the first page). -/
theorem modeSwitch_cursor_reset_witness :
    ((effectStep
        ⟨fun _ _ => [], [], [], fun _ _ => ([], none), fun _ => [], fun _ => []⟩
        ⟨none, none, none, some "t1,t2", FilterMode.any, "all"⟩
        ⟨[], [], PageTok.tok "p7", some "p8", ["", "p6"], [], false, none, 0,
          PageTok.tok "p7", none, none, none⟩).state.prevPageTokens = []) ∧
    ((effectStep
        ⟨fun _ _ => [], [], [], fun _ _ => ([], none), fun _ => [], fun _ => []⟩
        ⟨none, none, none, none, FilterMode.any, "all"⟩
        ((effectStep
          ⟨fun _ _ => [], [], [], fun _ _ => ([], none), fun _ => [], fun _ => []⟩
          ⟨none, none, none, some "t1,t2", FilterMode.any, "all"⟩
          ⟨[], [], PageTok.tok "p7", some "p8", ["", "p6"], [], false, none, 0,
            PageTok.tok "p7", none, none, none⟩).state)).pagedCursor
      = some PageTok.nul) :=
  ⟨(modeSwitch_cursor_reset.1
      ⟨fun _ _ => [], [], [], fun _ _ => ([], none), fun _ => [], fun _ => []⟩
      ⟨none, none, none, some "t1,t2", FilterMode.any, "all"⟩
      ⟨[], [], PageTok.tok "p7", some "p8", ["", "p6"], [], false, none, 0,
        PageTok.tok "p7", none, none, none⟩ rfl (Or.inl (by decide))).2.2,
   modeSwitch_cursor_reset.2.2
      ⟨fun _ _ => [], [], [], fun _ _ => ([], none), fun _ => [], fun _ => []⟩
      ⟨fun _ _ => [], [], [], fun _ _ => ([], none), fun _ => [], fun _ => []⟩
      ⟨none, none, none, some "t1,t2", FilterMode.any, "all"⟩
      ⟨none, none, none, none, FilterMode.any, "all"⟩
      ⟨[], [], PageTok.tok "p7", some "p8", ["", "p6"], [], false, none, 0,
        PageTok.tok "p7", none, none, none⟩
      rfl (Or.inl (by decide)) rfl rfl rfl rfl⟩

/-- A key present in a map stays present after appending entries. -/
theorem mapHas_append_left {α : Type} (m n : List (String × α)) (k : String)
    (h : mapHas m k = true) : mapHas (m ++ n) k = true := by
  rw [mapHas_iff] at h ⊢
  rcases h with ⟨e, he, hk⟩
  exact ⟨e, List.mem_append.mpr (Or.inl he), hk⟩

set_option maxHeartbeats 2000000 in
/-- C5: a load run issues detail fetches only for identifiers absent from
the cache (a cached identifier is never re-fetched); the cache key set only
grows across a load run (append-only); and a manual refresh in the paged
view clears the cache entirely and resets to the first page. -/
theorem cache_discipline :
    (∀ (env : FetchEnv) (p : ViewParams) (s : EmailsListState) (ids : List String),
      (effectStep env p s).detailFetchIds = some ids →
      ∀ id ∈ ids, mapHas s.emailCache id = false) ∧
    (∀ (env : FetchEnv) (p : ViewParams) (s : EmailsListState) (k : String),
      mapHas s.emailCache k = true →
      mapHas (effectStep env p s).state.emailCache k = true) ∧
    (∀ (p : ViewParams) (s : EmailsListState),
      optTruthy p.activeFilterName = false → optTruthy p.searchQuery = false →
      optTruthy p.filterTagsParam = false →
      ((triggerRefresh p false s).emailCache = [] ∧
       (triggerRefresh p false s).pageToken = PageTok.nul)) := by
  refine ⟨fun env p s ids h id hid => ?_, fun env p s k h => ?_, fun p s h1 h2 h3 => ?_⟩
  · unfold effectStep commonTail at h
    dsimp only at h
    split_ifs at h
    all_goals dsimp only at h
    all_goals
      first
        | exact Option.noConfusion h
        | (rw [Option.some.injEq] at h
           subst h
           have h2 := List.mem_filter.mp hid
           simpa using h2.2)
  · unfold effectStep commonTail earlyFinish
    dsimp only
    split_ifs
    all_goals
      first
        | rw [finishLoad_eq]
        | skip
    all_goals dsimp only [processAndMergeEmails, mergedEmailCache]
    all_goals
      first
        | exact h
        | exact mapHas_append_left _ _ _ h
  · simp [triggerRefresh, h1, h2, h3]

/-- C5 witness: a cached id stays cached across a paged load, and a manual
refresh from the paged view empties the cache and returns to the first
page. -/
theorem cache_discipline_witness :
    mapHas (effectStep
        ⟨fun _ _ => [], [], [], fun _ _ => (["e1", "e2"], none), fun _ => [], fun _ => []⟩
        ⟨none, none, none, none, FilterMode.any, "all"⟩
        ⟨[], [("e1", ⟨"e1", "t1", "s", "x", true, false, []⟩)], PageTok.nul, none, [],
          [], false, none, 0, PageTok.nul, none, none, none⟩).state.emailCache "e1"
      = true ∧
    ((triggerRefresh ⟨none, none, none, none, FilterMode.any, "all"⟩ false
        ⟨[], [("e1", ⟨"e1", "t1", "s", "x", true, false, []⟩)], PageTok.tok "p3", none, [],
          [], false, none, 0, PageTok.nul, none, none, none⟩).emailCache = [] ∧
     (triggerRefresh ⟨none, none, none, none, FilterMode.any, "all"⟩ false
        ⟨[], [("e1", ⟨"e1", "t1", "s", "x", true, false, []⟩)], PageTok.tok "p3", none, [],
          [], false, none, 0, PageTok.nul, none, none, none⟩).pageToken = PageTok.nul) :=
  ⟨cache_discipline.2.1
      ⟨fun _ _ => [], [], [], fun _ _ => (["e1", "e2"], none), fun _ => [], fun _ => []⟩
      ⟨none, none, none, none, FilterMode.any, "all"⟩
      ⟨[], [("e1", ⟨"e1", "t1", "s", "x", true, false, []⟩)], PageTok.nul, none, [],
        [], false, none, 0, PageTok.nul, none, none, none⟩ "e1" (by decide),
   cache_discipline.2.2 ⟨none, none, none, none, FilterMode.any, "all"⟩
      ⟨[], [("e1", ⟨"e1", "t1", "s", "x", true, false, []⟩)], PageTok.tok "p3", none, [],
        [], false, none, 0, PageTok.nul, none, none, none⟩ rfl rfl rfl⟩

end Timeloom
